import Mathlib

/-!
Verification development for the News-Analyzer-Agent repository.

The repository's only logic-bearing subsystem is a quota-aware retry and
rate-limiting layer around third-party APIs (src/config.py, src/crew.py,
src/tools.py).  This file shallowly embeds that layer:

* error texts are `List Char` (Python `str`); lower-casing is `Char.toLower`
  over the list, matching `str.lower()` on the ASCII texts at hand;
* the two quota-error classifiers (`QuotaAwareLLM._is_quota_error` in
  config.py and `EnhancedNewsCrew._is_quota_error` in crew.py) are direct
  translations of the substring tests they perform;
* the two retry-delay extractors are translated by implementing the exact
  regular-expression searches they run (`re.search` with the concrete
  patterns of the source, leftmost match, greedy `\d+` / `\s*`, lazy `.*?`);
  the `try/except` around parsing is modelled with `Except`;
* the sliding-window rate limiters (`_wait_for_rate_limit` in config.py and
  tools.py) are embedded with exact rational time and an explicit clock;
* the two retry drivers (`QuotaAwareLLM.invoke` and
  `EnhancedNewsCrew.execute_with_retry`) are embedded as functions from an
  operation's per-attempt behaviour to an outcome plus invocation count, and
  as action traces recording acquire / invoke / clear-history / wait steps.
-/

namespace NewsAnalyzer

/-- Python `str.lower()` on an ASCII error text. -/
def lower (s : List Char) : List Char := s.map Char.toLower

/-- Python's substring containment `needle in hay`. -/
def containsSub (hay needle : List Char) : Bool := decide (needle <:+: hay)

/-- The ASCII digit class `\d` as matched against the error texts. -/
def isDigitChar (c : Char) : Bool := decide ('0' ≤ c ∧ c ≤ '9')

/-- The whitespace class `\s`: space, tab, newline, CR, vertical tab, formfeed. -/
def isSpaceChar (c : Char) : Bool :=
  c = ' ' || c = '\t' || c = '\n' || c = '\r' || c = '\x0b' || c = '\x0c'

/-- Greedy `\s*`: drop the maximal run of whitespace. -/
def dropSpaces (s : List Char) : List Char := s.dropWhile isSpaceChar

/-- Match a literal at the head of the text, returning the remaining text. -/
def stripLit : List Char → List Char → Option (List Char)
  | [], s => some s
  | _, [] => none
  | c :: cs, d :: ds => if c = d then stripLit cs ds else none

/-- Decimal value of a digit string. -/
def digitsVal (ds : List Char) : Nat :=
  ds.foldl (fun acc c => acc * 10 + (c.toNat - '0'.toNat)) 0

/-- Python `int(...)` on a regex capture, as a fallible parse: it fails on an
empty or non-digit string (the surrounding `try/except` in the source maps any
such failure to `None`). -/
def parseNat (ds : List Char) : Except (List Char) Nat :=
  if ds = [] ∨ ds.any (fun c => !isDigitChar c) then
    Except.error ("invalid literal for int".toList)
  else
    Except.ok (digitsVal ds)

/-- Anchored match of `retry_delay\s*\{\s*seconds:\s*(\d+)\s*\}` at the head of
the text, returning the digits of group 1.  The greedy `\s*` / `\d+` steps are
deterministic here because the following literal characters are never
whitespace or digits. -/
def matchRetryDelayAt (s : List Char) : Option (List Char) :=
  match stripLit "retry_delay".toList s with
  | none => none
  | some r1 =>
    match stripLit "\x7b".toList (dropSpaces r1) with
    | none => none
    | some r2 =>
      match stripLit "seconds:".toList (dropSpaces r2) with
      | none => none
      | some r3 =>
        let r4 := dropSpaces r3
        let ds := r4.takeWhile isDigitChar
        if ds = [] then none
        else
          match stripLit "\x7d".toList (dropSpaces (r4.dropWhile isDigitChar)) with
          | none => none
          | some _ => some ds

/-- Anchored match of `seconds:\s*(\d+)` at the head of the text. -/
def matchSecondsAt (s : List Char) : Option (List Char) :=
  match stripLit "seconds:".toList s with
  | none => none
  | some r =>
    let ds := (dropSpaces r).takeWhile isDigitChar
    if ds = [] then none else some ds

/-- The first maximal digit run in the text, together with the text after it. -/
def firstDigitRun : List Char → Option (List Char × List Char)
  | [] => none
  | c :: rest =>
    if isDigitChar c then
      some ((c :: rest).takeWhile isDigitChar, (c :: rest).dropWhile isDigitChar)
    else firstDigitRun rest

/-- Anchored match of `kw.*?(\d+).*?second` at the head of the text (already
lower-cased for `re.IGNORECASE`).  Backtracking semantics collapse to: the
literal keyword, then the first digit run after it, accepted when `second`
occurs anywhere after that run (`second` starts with a non-digit, so no
occurrence can begin inside the run, and a shorter capture never helps). -/
def matchLooseAt (kw : List Char) (s : List Char) : Option (List Char) :=
  match stripLit kw s with
  | none => none
  | some rest =>
    match firstDigitRun rest with
    | none => none
    | some (run, after) =>
      if "second".toList <:+: after then some run else none

/-- `re.search`: try the anchored matcher at each position, leftmost first. -/
def searchAt (m : List Char → Option (List Char)) : List Char → Option (List Char)
  | [] => m []
  | c :: rest =>
    match m (c :: rest) with
    | some ds => some ds
    | none => searchAt m rest

/-! ## The LLM layer (src/config.py, class QuotaAwareLLM) -/

namespace Config

/-- The quota indicators of `QuotaAwareLLM._is_quota_error` (config.py). -/
def quota_indicators : List (List Char) :=
  ["429".toList, "quota".toList, "rate limit".toList, "resourceexhausted".toList,
   "exceeded your current quota".toList, "rate-limits".toList, "too many requests".toList]

/-- `QuotaAwareLLM._is_quota_error` (config.py): lower-case the error text and
test each indicator for substring containment. -/
def is_quota_error (error : List Char) : Bool :=
  quota_indicators.any (fun ind => containsSub (lower error) ind)

/-- Body of `QuotaAwareLLM._extract_retry_delay` (config.py) inside its
`try`: the `retry_delay { seconds: N }` pattern first (case-sensitive), then
the fallback patterns `seconds:\s*(\d+)`, `retry.*?(\d+).*?second`,
`wait.*?(\d+).*?second`, each with `re.IGNORECASE` (modelled by searching the
lower-cased text); the capture is parsed with `int(...)`. -/
def extract_retry_delay_body (msg : List Char) : Except (List Char) (Option Nat) :=
  match searchAt matchRetryDelayAt msg with
  | some ds => (parseNat ds).map some
  | none =>
    match searchAt matchSecondsAt (lower msg) with
    | some ds => (parseNat ds).map some
    | none =>
      match searchAt (matchLooseAt "retry".toList) (lower msg) with
      | some ds => (parseNat ds).map some
      | none =>
        match searchAt (matchLooseAt "wait".toList) (lower msg) with
        | some ds => (parseNat ds).map some
        | none => Except.ok none

/-- `QuotaAwareLLM._extract_retry_delay` (config.py): the `except` clause
turns any parse failure into `None`. -/
def extract_retry_delay (msg : List Char) : Option Nat :=
  match extract_retry_delay_body msg with
  | Except.ok v => v
  | Except.error _ => none

/-- `QuotaAwareLLM._handle_quota_error` (config.py): `if retry_delay:` is a
truthiness test, so `None` and `0` both fall to the flat 70-second default;
otherwise the wait is the extracted delay plus a 10-second buffer. -/
def handle_quota_error (msg : List Char) : Nat :=
  match extract_retry_delay msg with
  | some d => if d = 0 then 70 else d + 10
  | none => 70

end Config

/-! ## The crew layer (src/crew.py, class EnhancedNewsCrew) -/

namespace CrewMod

/-- The quota indicators of `EnhancedNewsCrew._is_quota_error` (crew.py);
note this list has six entries — `'too many requests'` is absent. -/
def quota_indicators : List (List Char) :=
  ["429".toList, "quota".toList, "rate limit".toList, "resourceexhausted".toList,
   "exceeded your current quota".toList, "rate-limits".toList]

/-- `EnhancedNewsCrew._is_quota_error` (crew.py). -/
def is_quota_error (error_message : List Char) : Bool :=
  quota_indicators.any (fun ind => containsSub (lower error_message) ind)

/-- Body of `EnhancedNewsCrew._extract_retry_delay` (crew.py) inside its
`try`: the `retry_delay { seconds: N }` pattern, then the single fallback
`seconds:\s*(\d+)`, both case-sensitive (no `re.IGNORECASE` here). -/
def extract_retry_delay_body (msg : List Char) : Except (List Char) (Option Nat) :=
  match searchAt matchRetryDelayAt msg with
  | some ds => (parseNat ds).map some
  | none =>
    match searchAt matchSecondsAt msg with
    | some ds => (parseNat ds).map some
    | none => Except.ok none

/-- `EnhancedNewsCrew._extract_retry_delay` (crew.py). -/
def extract_retry_delay (msg : List Char) : Option Nat :=
  match extract_retry_delay_body msg with
  | Except.ok v => v
  | Except.error _ => none

/-- `min(base_retry_delay * 2 ** attempt, max_retry_delay)` with
`base_retry_delay = 30`, `max_retry_delay = 300` (crew.py). -/
def exponential_backoff (attempt : Nat) : Nat := min (30 * 2 ^ attempt) 300

/-- `EnhancedNewsCrew._calculate_wait_time` (crew.py): `if api_retry_delay:`
is a truthiness test, so `None` and `0` both fall to exponential backoff;
otherwise the wait is the extracted delay plus a 10-second buffer. -/
def calculate_wait_time (attempt : Nat) (msg : List Char) : Nat :=
  match extract_retry_delay msg with
  | some d => if d = 0 then exponential_backoff attempt else d + 10
  | none => exponential_backoff attempt

end CrewMod

/-! ## Sliding-window rate limiters

`QuotaAwareLLM._wait_for_rate_limit` and `EmbeddingRateLimiter.wait_for_rate_limit`
(config.py) and `RateLimitedTool._wait_for_rate_limit` (tools.py) share one
algorithm, differing only in the ceiling, the sleep buffer (3s, 2s, 3s) and an
unconditional extra `time.sleep(2)` in the tools version before recording.
Time is exact rational seconds; `now` is the controllable clock. -/

/-- One `_wait_for_rate_limit` call at clock `now`: prune timestamps older than
60 seconds, sleep past the oldest retained timestamp's window exit (plus
`buffer`) when `ceil` or more remain, sleep `extra` more, then append a fresh
timestamp for the new "now".  Returns the new timestamp list and the clock at
completion. -/
def wait_for_rate_limit (ceil : Nat) (buffer extra : ℚ) (times : List ℚ) (now : ℚ) :
    List ℚ × ℚ :=
  let pruned := times.filter (fun u => decide (now - 60 < u))
  let afterWait : ℚ :=
    if ceil ≤ pruned.length then
      match pruned.min? with
      | some oldest =>
        let wait_seconds := oldest + 60 - now
        if 0 < wait_seconds then now + wait_seconds + buffer else now
      | none => now
    else now
  let done := afterWait + extra
  (pruned ++ [done], done)

/-- Run a sequence of `acquire()` calls, each preceded by a caller-chosen
non-negative clock advance; returns the recorded timestamp list and the clock
after the last call. -/
def runAcquires (ceil : Nat) (buffer extra : ℚ) : List ℚ → List ℚ → ℚ → List ℚ × ℚ
  | [], times, now => (times, now)
  | g :: gs, times, now =>
    let st := wait_for_rate_limit ceil buffer extra times (now + g)
    runAcquires ceil buffer extra gs st.1 st.2

/-- Number of recorded timestamps inside the trailing 60-second window ending
at `t`. -/
def windowCount (times : List ℚ) (t : ℚ) : Nat :=
  (times.filter (fun u => decide (t - 60 < u ∧ u ≤ t))).length

/-- Limiter invariant: every recorded timestamp lies in the past, and at most
`ceil` of them are younger than 60 seconds. -/
def LimInv (ceil : Nat) (times : List ℚ) (now : ℚ) : Prop :=
  (∀ u ∈ times, u ≤ now) ∧ (times.filter (fun u => decide (now - 60 < u))).length ≤ ceil

/-! ## Retry drivers

`QuotaAwareLLM.invoke` (config.py) and `EnhancedNewsCrew.execute_with_retry`
(crew.py) run the same loop: `for attempt in range(max_attempts)`, invoke the
operation; on success return; on a quota-classified error retry when
`attempt < max_attempts - 1` and raise an aggregate error naming
`max_attempts` on the last attempt; on any other error re-raise immediately. -/

/-- What one invocation of the wrapped operation does. -/
inductive OpResult (α : Type) where
  | ok (v : α)
  | err (e : List Char)

/-- Outcome of a retry-wrapped call.  `loopFellThrough` is the final
`raise Exception("Failed to ...")` after the loop, reachable only when
`max_attempts = 0`. -/
inductive RetryOutcome (α : Type) where
  | success (v : α)
  | originalError (e : List Char)
  | quotaExhausted (attempts : Nat)
  | loopFellThrough
deriving DecidableEq

/-- The retry loop from attempt `attempt` with `remaining` loop iterations
left (`remaining = max_attempts - attempt` throughout a run), also counting
how many times the operation has been invoked. -/
def retryGo (isQ : List Char → Bool) (op : Nat → OpResult α) (maxAttempts : Nat) :
    Nat → Nat → Nat → RetryOutcome α × Nat
  | 0, _, calls => (RetryOutcome.loopFellThrough, calls)
  | r + 1, attempt, calls =>
    match op attempt with
    | OpResult.ok v => (RetryOutcome.success v, calls + 1)
    | OpResult.err e =>
      if isQ e then
        if attempt < maxAttempts - 1 then
          retryGo isQ op maxAttempts r (attempt + 1) (calls + 1)
        else (RetryOutcome.quotaExhausted maxAttempts, calls + 1)
      else (RetryOutcome.originalError e, calls + 1)

/-- A retry-wrapped call: the loop from attempt 0 with zero invocations so
far.  Instantiated with `Config.is_quota_error` by `QuotaAwareLLM.invoke` and
with `CrewMod.is_quota_error` by `EnhancedNewsCrew.execute_with_retry`, both
with `max_attempts = 5`. -/
def execute_with_retry (isQ : List Char → Bool) (op : Nat → OpResult α)
    (maxAttempts : Nat) : RetryOutcome α × Nat :=
  retryGo isQ op maxAttempts maxAttempts 0 0

/-! ## Action traces of the two retry drivers (for the ordering of rate-limit
acquire, operation invocation, history clearing and backoff waits). -/

/-- Observable step of a retry driver. -/
inductive RAction where
  | acquire
  | invokeOp
  | clearHistory
  | wait (n : Nat)
deriving DecidableEq

/-- Trace of `QuotaAwareLLM.invoke` (config.py): each attempt calls
`_wait_for_rate_limit()` then the underlying invoke; on a quota error with
attempts remaining it clears `request_times` and then waits
(`_handle_quota_error` / `_countdown_wait`). -/
def llmTraceGo (isQ : List Char → Bool) (waitOf : List Char → Nat)
    (op : Nat → OpResult α) (maxAttempts : Nat) : Nat → Nat → List RAction
  | 0, _ => []
  | r + 1, attempt =>
    RAction.acquire :: RAction.invokeOp ::
      (match op attempt with
       | OpResult.ok _ => []
       | OpResult.err e =>
         if isQ e then
           if attempt < maxAttempts - 1 then
             RAction.clearHistory :: RAction.wait (waitOf e) ::
               llmTraceGo isQ waitOf op maxAttempts r (attempt + 1)
           else []
         else [])

/-- Trace of `QuotaAwareLLM.invoke` from the start. -/
def llmInvokeTrace (isQ : List Char → Bool) (waitOf : List Char → Nat)
    (op : Nat → OpResult α) (maxAttempts : Nat) : List RAction :=
  llmTraceGo isQ waitOf op maxAttempts maxAttempts 0

/-- Trace of `EnhancedNewsCrew.execute_with_retry` (crew.py) from attempt
`attempt`: a progressive `time.sleep(15 + attempt * 10)` before each retry
attempt, then `self.crew.kickoff()`; on a quota error with attempts remaining
it waits the computed backoff (`_countdown_wait`).  No rate limiter exists at
this layer: no acquire and no history clearing occur. -/
def crewTraceGo (isQ : List Char → Bool) (waitOf : Nat → List Char → Nat)
    (op : Nat → OpResult α) (maxAttempts : Nat) : Nat → Nat → List RAction
  | 0, _ => []
  | r + 1, attempt =>
    (if 0 < attempt then [RAction.wait (15 + attempt * 10)] else []) ++
      RAction.invokeOp ::
        (match op attempt with
         | OpResult.ok _ => []
         | OpResult.err e =>
           if isQ e then
             if attempt < maxAttempts - 1 then
               RAction.wait (waitOf attempt e) ::
                 crewTraceGo isQ waitOf op maxAttempts r (attempt + 1)
             else []
           else [])

/-- Trace of `EnhancedNewsCrew.execute_with_retry` from the start, beginning
with the fixed initial `time.sleep(10)`. -/
def crewExecuteTrace (isQ : List Char → Bool) (waitOf : Nat → List Char → Nat)
    (op : Nat → OpResult α) (maxAttempts : Nat) : List RAction :=
  RAction.wait 10 :: crewTraceGo isQ waitOf op maxAttempts maxAttempts 0

/-- A trace made of blocks `[acquire, invokeOp]` and `[clearHistory, wait _]`:
every invocation is immediately preceded by a rate-limiter acquire, and every
backoff wait is immediately preceded by clearing the recorded history. -/
def acquireClearShape : List RAction → Bool
  | [] => true
  | RAction.acquire :: RAction.invokeOp :: rest => acquireClearShape rest
  | RAction.clearHistory :: RAction.wait _ :: rest => acquireClearShape rest
  | _ => false

/-! ## Web-search tool (src/tools.py, RateLimitedSerperTool) and process exit
(src/crew.py, main / `__main__`). -/

namespace Tools

/-- The sentinel returned by `RateLimitedSerperTool.search` when
`SERPER_API_KEY` is unconfigured (tools.py). -/
def notConfiguredMsg : List Char :=
  "Serper API key not configured. Please set SERPER_API_KEY environment variable.".toList

/-- The error string built by the `except` clause of
`RateLimitedSerperTool.search` (tools.py). -/
def searchErrorMsg (e : List Char) : List Char := "Search error: ".toList ++ e

/-- `RateLimitedSerperTool.search` (tools.py): returns the not-configured
sentinel when search is disabled; otherwise returns the wrapper's result, with
any exception from the underlying call caught and rendered as a
`Search error: ...` string.  `run` is the behaviour of
`self.serper_wrapper.run(query)`. -/
def serperSearch (searchEnabled : Bool) (run : Except (List Char) (List Char)) :
    List Char :=
  if searchEnabled = false then notConfiguredMsg
  else
    match run with
    | Except.ok r => r
    | Except.error e => searchErrorMsg e

/-- The `search_tool` function (tools.py) just delegates to
`serper_tool_instance.search(query)`. -/
def search_tool (searchEnabled : Bool) (run : Except (List Char) (List Char)) :
    List Char :=
  serperSearch searchEnabled run

end Tools

namespace Entry

/-- `main` (crew.py): the whole body is inside `try`; any raised `Exception`
(including the aggregate quota-exhausted error) is caught, troubleshooting
tips are printed, and `None` is returned.  `runOutcome` is the behaviour of
`enhanced_crew.execute_with_retry()`. -/
def pyMain (runOutcome : Except (List Char) α) : Except (List Char) (Option α) :=
  match (runOutcome.map fun r => some r : Except (List Char) (Option α)) with
  | Except.ok v => Except.ok v
  | Except.error _ => Except.ok none

/-- Exit status of the script: the `__main__` block runs
`result = main(topic)` and never calls `sys.exit`, so the process exits 0
whenever `main` returns (status 1 would require an uncaught exception). -/
def scriptExitCode (runOutcome : Except (List Char) α) : Nat :=
  match pyMain runOutcome with
  | Except.ok _ => 0
  | Except.error _ => 1

end Entry

/-! ## Helper lemmas -/

/-- Every capture produced by the primary `retry_delay { seconds: N }` matcher
is a nonempty digit string. -/
lemma matchRetryDelayAt_digits {s ds : List Char} (h : matchRetryDelayAt s = some ds) :
    ds ≠ [] ∧ ∀ c ∈ ds, isDigitChar c = true := by
  unfold matchRetryDelayAt at h
  split at h
  · cases h
  split at h
  · cases h
  split at h
  · cases h
  simp only [] at h
  split at h
  · cases h
  rename_i hne
  split at h
  · cases h
  cases h
  exact ⟨hne, fun c hc => List.mem_takeWhile_imp hc⟩

/-- Every capture produced by the `seconds:\s*(\d+)` matcher is a nonempty
digit string. -/
lemma matchSecondsAt_digits {s ds : List Char} (h : matchSecondsAt s = some ds) :
    ds ≠ [] ∧ ∀ c ∈ ds, isDigitChar c = true := by
  unfold matchSecondsAt at h
  split at h
  · cases h
  · simp only [] at h
    split at h
    · cases h
    · rename_i hne
      cases h
      exact ⟨hne, fun c hc => List.mem_takeWhile_imp hc⟩

/-- The first digit run of a text is a nonempty digit string. -/
lemma firstDigitRun_digits :
    ∀ {s run after : List Char}, firstDigitRun s = some (run, after) →
      run ≠ [] ∧ ∀ c ∈ run, isDigitChar c = true := by
  intro s
  induction s with
  | nil => intro run after h; cases h
  | cons c rest ih =>
    intro run after h
    unfold firstDigitRun at h
    split at h
    · rename_i hd
      cases h
      refine ⟨?_, fun x hx => List.mem_takeWhile_imp hx⟩
      simp [List.takeWhile_cons, hd]
    · exact ih h

/-- Every capture produced by a loose `kw.*?(\d+).*?second` matcher is a
nonempty digit string. -/
lemma matchLooseAt_digits {kw s ds : List Char} (h : matchLooseAt kw s = some ds) :
    ds ≠ [] ∧ ∀ c ∈ ds, isDigitChar c = true := by
  unfold matchLooseAt at h
  split at h
  · cases h
  · split at h
    · cases h
    · rename_i heq
      split at h
      · cases h
        exact firstDigitRun_digits heq
      · cases h

/-- Whatever `searchAt` returns was returned by the anchored matcher on some
suffix. -/
lemma searchAt_eq_some {m : List Char → Option (List Char)} :
    ∀ {s ds : List Char}, searchAt m s = some ds → ∃ t, m t = some ds := by
  intro s
  induction s with
  | nil => intro ds h; exact ⟨[], h⟩
  | cons c rest ih =>
    intro ds h
    unfold searchAt at h
    split at h
    · rename_i ds' heq
      cases h
      exact ⟨c :: rest, heq⟩
    · exact ih h

/-- `int(...)` succeeds on every nonempty digit string. -/
lemma parseNat_ok {ds : List Char} (h1 : ds ≠ []) (h2 : ∀ c ∈ ds, isDigitChar c = true) :
    parseNat ds = Except.ok (digitsVal ds) := by
  unfold parseNat
  rw [if_neg]
  push_neg
  refine ⟨h1, ?_⟩
  intro hcon
  rcases List.any_eq_true.mp hcon with ⟨c, hc, hbad⟩
  rw [h2 c hc] at hbad
  simp at hbad

/-- The LLM-layer extractor body never reaches an error: every regex capture
it parses is a nonempty digit string. -/
lemma config_body_ok (msg : List Char) :
    ∃ v, Config.extract_retry_delay_body msg = Except.ok v := by
  unfold Config.extract_retry_delay_body
  split
  · rename_i ds heq
    obtain ⟨t, ht⟩ := searchAt_eq_some heq
    obtain ⟨h1, h2⟩ := matchRetryDelayAt_digits ht
    exact ⟨some (digitsVal ds), by rw [parseNat_ok h1 h2]; rfl⟩
  split
  · rename_i ds heq
    obtain ⟨t, ht⟩ := searchAt_eq_some heq
    obtain ⟨h1, h2⟩ := matchSecondsAt_digits ht
    exact ⟨some (digitsVal ds), by rw [parseNat_ok h1 h2]; rfl⟩
  split
  · rename_i ds heq
    obtain ⟨t, ht⟩ := searchAt_eq_some heq
    obtain ⟨h1, h2⟩ := matchLooseAt_digits ht
    exact ⟨some (digitsVal ds), by rw [parseNat_ok h1 h2]; rfl⟩
  split
  · rename_i ds heq
    obtain ⟨t, ht⟩ := searchAt_eq_some heq
    obtain ⟨h1, h2⟩ := matchLooseAt_digits ht
    exact ⟨some (digitsVal ds), by rw [parseNat_ok h1 h2]; rfl⟩
  exact ⟨none, rfl⟩

/-- The crew-layer extractor body never reaches an error. -/
lemma crew_body_ok (msg : List Char) :
    ∃ v, CrewMod.extract_retry_delay_body msg = Except.ok v := by
  unfold CrewMod.extract_retry_delay_body
  split
  · rename_i ds heq
    obtain ⟨t, ht⟩ := searchAt_eq_some heq
    obtain ⟨h1, h2⟩ := matchRetryDelayAt_digits ht
    exact ⟨some (digitsVal ds), by rw [parseNat_ok h1 h2]; rfl⟩
  split
  · rename_i ds heq
    obtain ⟨t, ht⟩ := searchAt_eq_some heq
    obtain ⟨h1, h2⟩ := matchSecondsAt_digits ht
    exact ⟨some (digitsVal ds), by rw [parseNat_ok h1 h2]; rfl⟩
  exact ⟨none, rfl⟩

/-! ## Claim theorems -/

/-- C2 counterexample: the claim asserts the seven-indicator characterisation
for both classifier instances, but the crew-layer classifier (crew.py) returns
`false` on `"too many requests"` although that text contains the indicator
phrase `'too many requests'`. -/
theorem claim_C2_counterexample :
    CrewMod.is_quota_error ("too many requests".toList) = false ∧
    "too many requests".toList <:+: lower ("too many requests".toList) := by
  constructor
  · decide
  · decide

/-- C2 (amended): for every error string, the LLM-layer classifier
(config.py) returns true exactly when the lower-cased string contains one of
its seven indicator phrases, while the crew-layer classifier (crew.py) tests
only six indicators — `'too many requests'` is absent from its list. -/
theorem claim_C2 :
    ∀ s : List Char,
      (Config.is_quota_error s = true ↔
        ∃ ind ∈ Config.quota_indicators, ind <:+: lower s) ∧
      (CrewMod.is_quota_error s = true ↔
        ∃ ind ∈ CrewMod.quota_indicators, ind <:+: lower s) := by
  intro s
  constructor <;>
    simp [Config.is_quota_error, CrewMod.is_quota_error, containsSub, List.any_eq_true]

/-- C3 counterexample: the claim asserts that `'please wait 17 seconds'`
yields 17 via a fallback pattern in both extractor instances, but the
crew-layer extractor (crew.py) has no loose `wait ... seconds` fallback (only
`seconds:\s*(\d+)`), so it yields nothing there while the LLM layer yields
17. -/
theorem claim_C3_counterexample :
    CrewMod.extract_retry_delay "please wait 17 seconds".toList = none ∧
    Config.extract_retry_delay "please wait 17 seconds".toList = some 17 := by
  constructor
  · decide
  · decide

/-- C3 (amended): both extractors try the explicit
`retry_delay { seconds: N }` pattern first and its match wins; on the LLM
layer, `'retry_delay { seconds: 42 }'` yields 42, `'please wait 17 seconds'`
yields 17 via the loose fallback patterns, and text with no numeric hint
yields nothing; the crew layer agrees on the explicit pattern and on the
no-hint case, but its only fallback is `seconds:\s*(\d+)`, so
`'please wait 17 seconds'` yields nothing there. -/
theorem claim_C3 :
    (∀ msg ds : List Char, searchAt matchRetryDelayAt msg = some ds →
      Config.extract_retry_delay msg = some (digitsVal ds) ∧
      CrewMod.extract_retry_delay msg = some (digitsVal ds)) ∧
    Config.extract_retry_delay "retry_delay \x7b seconds: 42 \x7d".toList = some 42 ∧
    CrewMod.extract_retry_delay "retry_delay \x7b seconds: 42 \x7d".toList = some 42 ∧
    Config.extract_retry_delay "please wait 17 seconds".toList = some 17 ∧
    Config.extract_retry_delay "no numeric hint".toList = none ∧
    CrewMod.extract_retry_delay "no numeric hint".toList = none ∧
    CrewMod.extract_retry_delay "please wait 17 seconds".toList = none := by
  refine ⟨?_, by decide, by decide, by decide, by decide, by decide, by decide⟩
  intro msg ds h
  obtain ⟨t, ht⟩ := searchAt_eq_some h
  obtain ⟨h1, h2⟩ := matchRetryDelayAt_digits ht
  constructor
  · unfold Config.extract_retry_delay Config.extract_retry_delay_body
    rw [h]
    simp [parseNat_ok h1 h2, Except.map]
  · unfold CrewMod.extract_retry_delay CrewMod.extract_retry_delay_body
    rw [h]
    simp [parseNat_ok h1 h2, Except.map]

/-- C3 witness: the primary-pattern clause of the amended C3 theorem applied
at a concrete error text. -/
theorem claim_C3_witness :
    Config.extract_retry_delay "retry_delay \x7b seconds: 7 \x7d".toList = some 7 ∧
    CrewMod.extract_retry_delay "retry_delay \x7b seconds: 7 \x7d".toList = some 7 := by
  obtain ⟨h1, h2⟩ :=
    claim_C3.1 "retry_delay \x7b seconds: 7 \x7d".toList "7".toList (by decide)
  exact ⟨h1, h2⟩

/-- C5 counterexample: `'seconds: 0'` makes the crew-layer extractor return
the delay 0, yet the computed wait is the exponential 30, not 0 + 10, because
`if api_retry_delay:` treats 0 as absent. -/
theorem claim_C5_counterexample :
    CrewMod.extract_retry_delay "seconds: 0".toList = some 0 ∧
    CrewMod.calculate_wait_time 0 "seconds: 0".toList = 30 := by
  constructor
  · decide
  · decide

/-- C5 (amended): with no extracted delay the crew-layer wait for attempt `a`
is `min (30 * 2 ^ a) 300` — 30, 60, 120, 240, 300 for attempts 0–4; an
extracted delay `N` gives `N + 10` only when `N ≥ 1` (an extracted 0 is
treated as absent by the truthiness test and falls back to the exponential
wait). -/
theorem claim_C5 :
    (∀ (a : Nat) (msg : List Char), CrewMod.extract_retry_delay msg = none →
      CrewMod.calculate_wait_time a msg = min (30 * 2 ^ a) 300) ∧
    (∀ (a : Nat) (msg : List Char) (n : Nat),
      CrewMod.extract_retry_delay msg = some n → n ≠ 0 →
      CrewMod.calculate_wait_time a msg = n + 10) ∧
    CrewMod.calculate_wait_time 0 "no hint".toList = 30 ∧
    CrewMod.calculate_wait_time 1 "no hint".toList = 60 ∧
    CrewMod.calculate_wait_time 2 "no hint".toList = 120 ∧
    CrewMod.calculate_wait_time 3 "no hint".toList = 240 ∧
    CrewMod.calculate_wait_time 4 "no hint".toList = 300 := by
  refine ⟨?_, ?_, by decide, by decide, by decide, by decide, by decide⟩
  · intro a msg h
    unfold CrewMod.calculate_wait_time
    rw [h]
    rfl
  · intro a msg n h hn
    unfold CrewMod.calculate_wait_time
    rw [h]
    simp [hn]

/-- C5 witness: the api-specified clause of the amended C5 theorem applied at
a concrete error text. -/
theorem claim_C5_witness :
    CrewMod.calculate_wait_time 0 "seconds: 42".toList = 52 := by
  have h := claim_C5.2.1 0 "seconds: 42".toList 42 (by decide) (by decide)
  exact h

/-- C7: delay extraction is total for both extractor instances — the bodies
of `_extract_retry_delay` (the `try` blocks, with `int(...)` modelled as a
fallible parse) always produce a value and never an error — and an empty
extraction result falls back to the flat 70-second wait (LLM layer) or the
exponential wait (crew layer) rather than propagating an error. -/
theorem claim_C7 :
    ∀ msg : List Char,
      (∃ v, Config.extract_retry_delay_body msg = Except.ok v) ∧
      (∃ v, CrewMod.extract_retry_delay_body msg = Except.ok v) ∧
      (Config.extract_retry_delay msg = none → Config.handle_quota_error msg = 70) ∧
      (∀ a : Nat, CrewMod.extract_retry_delay msg = none →
        CrewMod.calculate_wait_time a msg = CrewMod.exponential_backoff a) := by
  intro msg
  refine ⟨config_body_ok msg, crew_body_ok msg, ?_, ?_⟩
  · intro h
    unfold Config.handle_quota_error
    rw [h]
  · intro a h
    unfold CrewMod.calculate_wait_time
    rw [h]

/-- C7 witness: the fallback clauses of the C7 theorem applied at a concrete
error text with no numeric hint. -/
theorem claim_C7_witness :
    Config.handle_quota_error "no hint".toList = 70 ∧
    CrewMod.calculate_wait_time 2 "no hint".toList = CrewMod.exponential_backoff 2 := by
  exact ⟨(claim_C7 "no hint".toList).2.2.1 (by decide),
    (claim_C7 "no hint".toList).2.2.2 2 (by decide)⟩

/-- C8 counterexample: when `execute_with_retry` raises a fatal error (for
example the aggregate quota-exhausted error), `main` catches it and returns
`None`, and the `__main__` block never calls `sys.exit`, so the process exit
status is 0 — not non-zero as the claim states. -/
theorem claim_C8_counterexample :
    Entry.scriptExitCode
      (Except.error "Google API quota exceeded after 5 attempts.".toList
        : Except (List Char) Nat) = 0 := rfl

/-- C8 (amended): the process exits with status 0 both on full success and on
a fatal error, because `main` catches every `Exception` (printing
troubleshooting tips and returning `None`) and the entry point never sets a
non-zero exit status. -/
theorem claim_C8 :
    ∀ (α : Type) (runOutcome : Except (List Char) α),
      Entry.scriptExitCode runOutcome = 0 := by
  intro α runOutcome
  cases runOutcome <;> rfl

/-- C9: the web-search tool returns a string and never raises — when the
Serper key is unconfigured it returns the "not configured" sentinel, when the
underlying search call fails it returns a string carrying the `error:`
marker and the failure description, and otherwise it returns the underlying
result unchanged. -/
theorem claim_C9 :
    (∀ run, Tools.search_tool false run = Tools.notConfiguredMsg) ∧
    ("not configured".toList <:+: Tools.notConfiguredMsg) ∧
    (∀ e, Tools.search_tool true (Except.error e) = Tools.searchErrorMsg e) ∧
    (∀ e, "error:".toList <:+: Tools.searchErrorMsg e) ∧
    (∀ r, Tools.search_tool true (Except.ok r) = r) := by
  refine ⟨fun run => rfl, by decide, fun e => rfl, fun e => ?_, fun r => rfl⟩
  exact ⟨"Search ".toList, ' ' :: e, rfl⟩

/-- C1: for a retry driver with `max_attempts = 5` and any classifier (both
drivers instantiate the loop of `retryGo` — `QuotaAwareLLM.invoke` with the
LLM classifier, `EnhancedNewsCrew.execute_with_retry` with the crew one): an
operation failing with quota-classified errors on its first two invocations
and succeeding on the third returns the success after exactly 3 invocations;
an operation failing with quota-classified errors on every invocation is
invoked exactly 5 times and the driver raises the aggregate error naming the
attempt count 5; an operation failing with a non-quota error on its first
invocation is invoked exactly once and that error propagates unmodified. -/
theorem claim_C1 :
    ∀ (α : Type) (isQ : List Char → Bool) (op : Nat → OpResult α),
      (∀ (e0 e1 : List Char) (v : α),
        op 0 = OpResult.err e0 → isQ e0 = true →
        op 1 = OpResult.err e1 → isQ e1 = true →
        op 2 = OpResult.ok v →
        execute_with_retry isQ op 5 = (RetryOutcome.success v, 3)) ∧
      ((∀ k, k < 5 → ∃ e, op k = OpResult.err e ∧ isQ e = true) →
        execute_with_retry isQ op 5 = (RetryOutcome.quotaExhausted 5, 5)) ∧
      (∀ e : List Char, op 0 = OpResult.err e → isQ e = false →
        execute_with_retry isQ op 5 = (RetryOutcome.originalError e, 1)) := by
  intro α isQ op
  refine ⟨?_, ?_, ?_⟩
  · intro e0 e1 v h0 hq0 h1 hq1 h2
    simp [execute_with_retry, retryGo, h0, hq0, h1, hq1, h2]
  · intro hall
    obtain ⟨e0, h0, hq0⟩ := hall 0 (by omega)
    obtain ⟨e1, h1, hq1⟩ := hall 1 (by omega)
    obtain ⟨e2, h2, hq2⟩ := hall 2 (by omega)
    obtain ⟨e3, h3, hq3⟩ := hall 3 (by omega)
    obtain ⟨e4, h4, hq4⟩ := hall 4 (by omega)
    simp [execute_with_retry, retryGo, h0, hq0, h1, hq1, h2, hq2, h3, hq3, h4, hq4]
  · intro e h0 hq
    simp [execute_with_retry, retryGo, h0, hq]

/-- C1 witness: the first C1 scenario at a concrete operation that raises a
`429` error twice and then succeeds with the value 7, under the LLM-layer
classifier. -/
theorem claim_C1_witness :
    execute_with_retry Config.is_quota_error
      (fun k => if k < 2 then OpResult.err "429".toList else OpResult.ok 7) 5 =
      (RetryOutcome.success 7, 3) :=
  (claim_C1 Nat Config.is_quota_error
      (fun k => if k < 2 then OpResult.err "429".toList else OpResult.ok 7)).1
    "429".toList "429".toList 7 rfl (by decide) rfl (by decide) rfl

/-- The trace of the LLM-layer retry driver is made of `[acquire, invokeOp]`
and `[clearHistory, wait _]` blocks, from any attempt onwards. -/
lemma llmTraceGo_shape (α : Type) (isQ : List Char → Bool) (waitOf : List Char → Nat)
    (op : Nat → OpResult α) (maxAttempts : Nat) :
    ∀ (r attempt : Nat),
      acquireClearShape (llmTraceGo isQ waitOf op maxAttempts r attempt) = true := by
  intro r
  induction r with
  | zero => intro attempt; rfl
  | succ r ih =>
    intro attempt
    unfold llmTraceGo
    cases hop : op attempt with
    | ok v => simp [acquireClearShape]
    | err e =>
      by_cases hq : isQ e = true
      · by_cases hlt : attempt < maxAttempts - 1
        · simp [hq, hlt, acquireClearShape, ih]
        · simp [hq, hlt, acquireClearShape]
      · simp only [Bool.not_eq_true] at hq
        simp [hq, acquireClearShape]

/-- The crew-layer retry driver's trace contains neither a rate-limiter
acquire nor a history clear, from any attempt onwards. -/
lemma crewTraceGo_no_limiter (α : Type) (isQ : List Char → Bool)
    (waitOf : Nat → List Char → Nat) (op : Nat → OpResult α) (maxAttempts : Nat) :
    ∀ (r attempt : Nat),
      RAction.acquire ∉ crewTraceGo isQ waitOf op maxAttempts r attempt ∧
      RAction.clearHistory ∉ crewTraceGo isQ waitOf op maxAttempts r attempt := by
  intro r
  induction r with
  | zero => intro attempt; simp [crewTraceGo]
  | succ r ih =>
    intro attempt
    have ihs := ih (attempt + 1)
    unfold crewTraceGo
    cases hop : op attempt with
    | ok v =>
      constructor <;> simp
    | err e =>
      by_cases hq : isQ e = true
      · by_cases hlt : attempt < maxAttempts - 1
        · constructor <;> simp [hq, hlt, ihs.1, ihs.2]
        · constructor <;> simp [hq, hlt]
      · simp only [Bool.not_eq_true] at hq
        constructor <;> simp [hq]

/-- C6 (amended): in the LLM-invoke retry driver every attempt's invocation
is immediately preceded by a rate-limiter acquire and every backoff wait is
immediately preceded by clearing the recorded timestamp history; the
crew-task retry driver however has no rate limiter at all — its trace
contains no acquire and no history clear, only its fixed initial and
progressive delays, the invocations and the backoff waits. -/
theorem claim_C6 :
    ∀ (α : Type) (isQ : List Char → Bool) (waitOfL : List Char → Nat)
      (waitOfC : Nat → List Char → Nat) (op : Nat → OpResult α) (maxAttempts : Nat),
      acquireClearShape (llmInvokeTrace isQ waitOfL op maxAttempts) = true ∧
      RAction.acquire ∉ crewExecuteTrace isQ waitOfC op maxAttempts ∧
      RAction.clearHistory ∉ crewExecuteTrace isQ waitOfC op maxAttempts := by
  intro α isQ waitOfL waitOfC op maxAttempts
  refine ⟨llmTraceGo_shape α isQ waitOfL op maxAttempts maxAttempts 0, ?_, ?_⟩
  · intro hmem
    rcases List.mem_cons.mp hmem with h | h
    · cases h
    · exact (crewTraceGo_no_limiter α isQ waitOfC op maxAttempts maxAttempts 0).1 h
  · intro hmem
    rcases List.mem_cons.mp hmem with h | h
    · cases h
    · exact (crewTraceGo_no_limiter α isQ waitOfC op maxAttempts maxAttempts 0).2 h

/-- Filtering with a pointwise-weaker predicate keeps at least as many
elements. -/
lemma filter_length_mono {α : Type} {p q : α → Bool} :
    ∀ (l : List α), (∀ a ∈ l, p a = true → q a = true) →
      (l.filter p).length ≤ (l.filter q).length := by
  intro l
  induction l with
  | nil => intro _; exact Nat.le_refl _
  | cons a l ih =>
    intro h
    have ih' := ih fun b hb hpb => h b (List.mem_cons_of_mem _ hb) hpb
    by_cases hp : p a = true
    · have hq := h a (List.mem_cons_self _ _) hp
      rw [List.filter_cons, List.filter_cons, if_pos hp, if_pos hq]
      simpa using ih'
    · rw [List.filter_cons, if_neg hp]
      by_cases hq : q a = true
      · rw [List.filter_cons, if_pos hq]
        exact Nat.le_trans ih' (by simp)
      · rw [List.filter_cons, if_neg hq]
        exact ih'

/-- A filter that drops at least one member of the list is strictly shorter
than the list. -/
lemma filter_length_lt {α : Type} {p : α → Bool} {a : α} :
    ∀ (l : List α), a ∈ l → p a = false → (l.filter p).length < l.length := by
  intro l
  induction l with
  | nil => intro h _; cases h
  | cons b l ih =>
    intro hmem hpa
    rcases List.mem_cons.mp hmem with rfl | hmem'
    · rw [List.filter_cons, if_neg (by simp [hpa])]
      exact Nat.lt_succ_of_le (List.length_filter_le _ _)
    · by_cases hb : p b = true
      · rw [List.filter_cons, if_pos hb]
        exact Nat.succ_lt_succ (ih hmem' hpa)
      · rw [List.filter_cons, if_neg hb]
        exact Nat.lt_succ_of_lt (ih hmem' hpa)

/-- `_wait_for_rate_limit` when the pruned history is below the ceiling: no
sleep, just the extra delay and the fresh timestamp. -/
lemma wait_eq_low {ceil : Nat} {buffer extra now1 : ℚ} {times : List ℚ}
    (h : ¬ ceil ≤ (times.filter (fun u => decide (now1 - 60 < u))).length) :
    wait_for_rate_limit ceil buffer extra times now1 =
      (times.filter (fun u => decide (now1 - 60 < u)) ++ [now1 + extra], now1 + extra) := by
  unfold wait_for_rate_limit
  simp [h]

/-- `_wait_for_rate_limit` when the pruned history has reached the ceiling:
sleep until the oldest retained timestamp leaves the window, plus the buffer
and the extra delay. -/
lemma wait_eq_high {ceil : Nat} {buffer extra now1 oldest : ℚ} {times : List ℚ}
    (h : ceil ≤ (times.filter (fun u => decide (now1 - 60 < u))).length)
    (hmin : (times.filter (fun u => decide (now1 - 60 < u))).min? = some oldest)
    (hpos : 0 < oldest + 60 - now1) :
    wait_for_rate_limit ceil buffer extra times now1 =
      (times.filter (fun u => decide (now1 - 60 < u)) ++
         [now1 + (oldest + 60 - now1) + buffer + extra],
       now1 + (oldest + 60 - now1) + buffer + extra) := by
  unfold wait_for_rate_limit
  simp [h, hmin, hpos]

/-- One `_wait_for_rate_limit` call at any later clock preserves the limiter
invariant, and its completion clock does not move backwards. -/
lemma wait_for_rate_limit_inv {ceil : Nat} {buffer extra : ℚ} {times : List ℚ}
    {now now1 : ℚ} (hceil : 1 ≤ ceil) (hb : 0 ≤ buffer) (he : 0 ≤ extra)
    (hnow : now ≤ now1) (hinv : LimInv ceil times now) :
    LimInv ceil (wait_for_rate_limit ceil buffer extra times now1).1
      (wait_for_rate_limit ceil buffer extra times now1).2 ∧
    now1 ≤ (wait_for_rate_limit ceil buffer extra times now1).2 := by
  obtain ⟨hpast, hcount⟩ := hinv
  have hplen : (times.filter (fun u => decide (now1 - 60 < u))).length ≤ ceil := by
    refine Nat.le_trans (filter_length_mono times ?_) hcount
    intro u hu h1
    have h1' := of_decide_eq_true h1
    exact decide_eq_true (by linarith)
  have hpmem : ∀ u ∈ times.filter (fun u => decide (now1 - 60 < u)),
      u ≤ now1 ∧ now1 - 60 < u := by
    intro u hu
    obtain ⟨hu1, hu2⟩ := List.mem_filter.mp hu
    exact ⟨le_trans (hpast u hu1) hnow, of_decide_eq_true hu2⟩
  by_cases hc : ceil ≤ (times.filter (fun u => decide (now1 - 60 < u))).length
  · obtain ⟨x, xs, hxx⟩ :
        ∃ x xs, times.filter (fun u => decide (now1 - 60 < u)) = x :: xs := by
      cases hp : times.filter (fun u => decide (now1 - 60 < u)) with
      | nil => rw [hp] at hc; simp at hc; omega
      | cons x xs => exact ⟨x, xs, rfl⟩
    have hmin : (times.filter (fun u => decide (now1 - 60 < u))).min? =
        some (xs.foldl min x) := by rw [hxx]; rfl
    have hold_mem : xs.foldl min x ∈ times.filter (fun u => decide (now1 - 60 < u)) :=
      List.min?_mem (fun a b => min_choice a b) hmin
    obtain ⟨holdle, holdgt⟩ := hpmem _ hold_mem
    have hpos : 0 < xs.foldl min x + 60 - now1 := by linarith
    rw [wait_eq_high hc hmin hpos]
    dsimp only
    have hdone : now1 + (xs.foldl min x + 60 - now1) + buffer + extra =
        xs.foldl min x + 60 + buffer + extra := by ring
    refine ⟨⟨?_, ?_⟩, ?_⟩
    · intro u hu
      rcases List.mem_append.mp hu with hu | hu
      · have := (hpmem u hu).1
        linarith
      · rw [List.mem_singleton] at hu
        rw [hu]
    · rw [List.filter_append, List.length_append]
      have h1 : ((times.filter (fun u => decide (now1 - 60 < u))).filter
          (fun u => decide (now1 + (xs.foldl min x + 60 - now1) + buffer + extra - 60 < u))).length <
          (times.filter (fun u => decide (now1 - 60 < u))).length := by
        refine filter_length_lt _ hold_mem (decide_eq_false ?_)
        intro hlt
        have : now1 + (xs.foldl min x + 60 - now1) + buffer + extra - 60 =
            xs.foldl min x + buffer + extra := by ring
        rw [this] at hlt
        linarith
      have h2 : (([now1 + (xs.foldl min x + 60 - now1) + buffer + extra].filter
          (fun u => decide (now1 + (xs.foldl min x + 60 - now1) + buffer + extra - 60 < u))).length) ≤ 1 := by
        simp [List.length_filter_le]
      omega
    · linarith
  · rw [wait_eq_low hc]
    dsimp only
    refine ⟨⟨?_, ?_⟩, ?_⟩
    · intro u hu
      rcases List.mem_append.mp hu with hu | hu
      · have := (hpmem u hu).1
        linarith
      · rw [List.mem_singleton] at hu
        rw [hu]
    · rw [List.filter_append, List.length_append]
      have h1 : ((times.filter (fun u => decide (now1 - 60 < u))).filter
          (fun u => decide (now1 + extra - 60 < u))).length ≤
          (times.filter (fun u => decide (now1 - 60 < u))).length :=
        List.length_filter_le _ _
      have h2 : (([now1 + extra].filter (fun u => decide (now1 + extra - 60 < u))).length) ≤ 1 := by
        simp [List.length_filter_le]
      omega
    · linarith

/-- Running any gap-separated sequence of `acquire()` calls preserves the
limiter invariant. -/
lemma runAcquires_inv {ceil : Nat} {buffer extra : ℚ} (hceil : 1 ≤ ceil)
    (hb : 0 ≤ buffer) (he : 0 ≤ extra) :
    ∀ (gaps : List ℚ), (∀ g ∈ gaps, 0 ≤ g) →
      ∀ (times : List ℚ) (now : ℚ), LimInv ceil times now →
        LimInv ceil (runAcquires ceil buffer extra gaps times now).1
          (runAcquires ceil buffer extra gaps times now).2 := by
  intro gaps
  induction gaps with
  | nil => intro _ times now h; exact h
  | cons g gs ih =>
    intro hg times now hinv
    have hgap : (0 : ℚ) ≤ g := hg g (List.mem_cons_self _ _)
    have hstep := @wait_for_rate_limit_inv ceil buffer extra times now (now + g)
      hceil hb he (by linarith) hinv
    exact ih (fun g' hg' => hg g' (List.mem_cons_of_mem _ hg')) _ _ hstep.1

/-- C4: for every sequence of `acquire()` calls on a sliding-window rate
limiter with ceiling `ceil ≥ 1`, non-negative sleep buffer and non-negative
extra inter-call delay (the LLM limiter is `ceil = 6, buffer = 3, extra = 0`,
the embedding limiter `ceil = 8, buffer = 2, extra = 0`, and the tool
limiters `ceil ∈ {2, 5, 6}, buffer = 3, extra = 2`), the number of recorded
timestamps inside any trailing 60-second window at or after the last call
never exceeds the ceiling. -/
theorem claim_C4 (ceil : Nat) (buffer extra : ℚ) (gaps : List ℚ) (t : ℚ)
    (hceil : 1 ≤ ceil) (hb : 0 ≤ buffer) (he : 0 ≤ extra)
    (hg : ∀ g ∈ gaps, 0 ≤ g)
    (ht : (runAcquires ceil buffer extra gaps [] 0).2 ≤ t) :
    windowCount (runAcquires ceil buffer extra gaps [] 0).1 t ≤ ceil := by
  have hinv := runAcquires_inv hceil hb he gaps hg [] 0
    ⟨fun u hu => absurd hu (List.not_mem_nil u), by simp⟩
  obtain ⟨hpast, hcount⟩ := hinv
  unfold windowCount
  refine Nat.le_trans (filter_length_mono _ ?_) hcount
  intro u hu h1
  obtain ⟨h1a, h1b⟩ := of_decide_eq_true h1
  have hu' := hpast u hu
  exact decide_eq_true (by linarith)

/-- C4 witness: a limiter with ceiling 2, buffer 3 and extra delay 2 (the
news-DB tool limiter), driven by three back-to-back `acquire()` calls,
retains at most 2 timestamps in the trailing window at the completion
clock. -/
theorem claim_C4_witness :
    windowCount (runAcquires 2 3 2 [0, 0, 0] [] 0).1 67 ≤ 2 := by
  have s1 : wait_for_rate_limit 2 3 2 [] ((0 : ℚ) + 0) = ([2], 2) := by
    rw [wait_eq_low (by simp)]
    norm_num
  have s2 : wait_for_rate_limit 2 3 2 [2] ((2 : ℚ) + 0) = ([2, 4], 4) := by
    have hf : ([2] : List ℚ).filter (fun u => decide ((2 : ℚ) + 0 - 60 < u)) = [2] := by
      norm_num [List.filter_cons, decide_eq_true_eq]
    rw [wait_eq_low (by rw [hf]; norm_num)]
    rw [hf]
    norm_num
  have s3 : wait_for_rate_limit 2 3 2 [2, 4] ((4 : ℚ) + 0) = ([2, 4, 67], 67) := by
    have hf : ([2, 4] : List ℚ).filter (fun u => decide ((4 : ℚ) + 0 - 60 < u)) = [2, 4] := by
      norm_num [List.filter_cons, decide_eq_true_eq]
    have hmin : (([2, 4] : List ℚ).filter (fun u => decide ((4 : ℚ) + 0 - 60 < u))).min? =
        some 2 := by
      rw [hf]
      norm_num [List.min?]
    rw [wait_eq_high (by rw [hf]; norm_num) hmin (by norm_num)]
    rw [hf]
    norm_num
  have hrun : runAcquires 2 3 2 [0, 0, 0] [] 0 = ([2, 4, 67], 67) := by
    simp only [runAcquires, s1, s2, s3]
  exact claim_C4 2 3 2 [0, 0, 0] 67 (by norm_num) (by norm_num) (by norm_num)
    (by intro g hg; fin_cases hg <;> norm_num) (by rw [hrun])

/-- C10: an extracted retry delay of exactly 0 seconds is treated as absent
by both wait calculators, because `if retry_delay:` / `if api_retry_delay:`
test truthiness rather than presence: the LLM layer then waits the flat
70-second default and the crew layer the exponential backoff, not 0 + 10. -/
theorem claim_C10 :
    (∀ msg : List Char, Config.extract_retry_delay msg = some 0 →
      Config.handle_quota_error msg = 70) ∧
    (∀ (a : Nat) (msg : List Char), CrewMod.extract_retry_delay msg = some 0 →
      CrewMod.calculate_wait_time a msg = CrewMod.exponential_backoff a) ∧
    Config.extract_retry_delay "retry_delay \x7b seconds: 0 \x7d".toList = some 0 ∧
    Config.handle_quota_error "retry_delay \x7b seconds: 0 \x7d".toList = 70 ∧
    CrewMod.extract_retry_delay "seconds: 0".toList = some 0 ∧
    CrewMod.calculate_wait_time 0 "seconds: 0".toList = 30 := by
  refine ⟨?_, ?_, by decide, by decide, by decide, by decide⟩
  · intro msg h
    unfold Config.handle_quota_error
    rw [h]
    rfl
  · intro a msg h
    unfold CrewMod.calculate_wait_time
    rw [h]
    rfl

/-- C10 witness: the two truthiness clauses of the C10 theorem applied at
concrete error texts that extract a 0-second delay. -/
theorem claim_C10_witness :
    Config.handle_quota_error "seconds: 0".toList = 70 ∧
    CrewMod.calculate_wait_time 2 "retry_delay \x7b seconds: 0 \x7d".toList =
      CrewMod.exponential_backoff 2 :=
  ⟨claim_C10.1 "seconds: 0".toList (by decide),
   claim_C10.2.1 2 "retry_delay \x7b seconds: 0 \x7d".toList (by decide)⟩

/-- C6 counterexample: the claim asserts that in every retry driver
instantiation the rate limiter's acquire is invoked before each attempt, but
the crew-task driver's trace for a concrete always-quota-failing operation
invokes the operation while containing no acquire (and no history clear). -/
theorem claim_C6_counterexample :
    RAction.invokeOp ∈
      crewExecuteTrace CrewMod.is_quota_error CrewMod.calculate_wait_time
        (fun _ => (OpResult.err "429".toList : OpResult Nat)) 5 ∧
    RAction.acquire ∉
      crewExecuteTrace CrewMod.is_quota_error CrewMod.calculate_wait_time
        (fun _ => (OpResult.err "429".toList : OpResult Nat)) 5 := by
  constructor
  · decide
  · decide

end NewsAnalyzer
